import Mathlib

/-!
Verification development for a single-file Python ETL script that downloads
yearly Thai population statistics, parses a pipe-delimited text format, loads
records into an in-process analytical table keyed by (data_year, cc_code), and
exports the table as hive-partitioned compressed parquet files.

Strings are modelled as Lean `String`s (lists of characters); Python integers
are `Int`; fallible operations return `Option`/`Except`; the network is an
oracle passed explicitly.  All definitions are executable.
-/

/-- Predicate for the byte-order-mark character. -/
def isBOM (c : Char) : Bool := c == '\uFEFF'

/-- Predicate for the pipe delimiter character. -/
def isPipe (c : Char) : Bool := c == '|'

/-- Whitespace ignored by Python `int()` around a numeric literal. -/
def isSpace (c : Char) : Bool := c == ' ' || c == '\n' || c == '\t' || c == '\r'

/-- Python `str.strip(chars)` on a character list: remove the characters
satisfying `p` from both ends (and only from the ends). -/
def stripList (p : Char → Bool) (l : List Char) : List Char :=
  ((l.dropWhile p).reverse.dropWhile p).reverse

/-- `clean_text(text)`: Python `text.strip` of the byte-order-mark. -/
def clean_text (text : String) : String := ⟨stripList isBOM text.data⟩

/-- The `row.strip('|')` step applied to each line by the driver loop. -/
def stripPipe (row : String) : String := ⟨stripList isPipe row.data⟩

/-- Python `str.split('|')` on a character list: split at every pipe,
keeping empty fields, with `[] ↦ [""]`. -/
def splitPipe : List Char → List (List Char)
  | [] => [[]]
  | c :: rest =>
    if c = '|' then [] :: splitPipe rest
    else
      match splitPipe rest with
      | f :: fs => (c :: f) :: fs
      | [] => [[c]]

/-- `extract_row(row)`: Python `row.split('|')`. -/
def extract_row (row : String) : List String :=
  (splitPipe row.data).map (fun l => ⟨l⟩)

/-- The line boundaries of Python `str.splitlines`: besides `\n` and `\r`
also the vertical tab, form feed, the file/group/record separators x1c-x1e,
the next-line character x85 and the Unicode line and paragraph separators
u2028 and u2029. -/
def isLineBreak (c : Char) : Bool :=
  c == '\n' || c == '\r' || c == '\x0b' || c == '\x0c' ||
  c == '\x1c' || c == '\x1d' || c == '\x1e' || c == '\x85' ||
  c == '\u2028' || c == '\u2029'

/-- Python `str.splitlines` worker: accumulates the current line (reversed)
and splits at `\r\n` (one boundary) or any single break character; a terminal
line break produces no empty line. -/
def splitlinesGo : List Char → List Char → List (List Char)
  | acc, [] => [acc.reverse]
  | acc, '\r' :: '\n' :: rest =>
    acc.reverse :: (if rest = [] then [] else splitlinesGo [] rest)
  | acc, c :: rest =>
    if isLineBreak c then
      acc.reverse :: (if rest = [] then [] else splitlinesGo [] rest)
    else splitlinesGo (c :: acc) rest

/-- Python `str.splitlines()` (an empty string has no lines). -/
def pySplitlines (s : String) : List String :=
  match s.data with
  | [] => []
  | cs => (splitlinesGo [] cs).map (fun l => ⟨l⟩)

/-- The first line of a text: its characters up to the first line break. -/
def firstLine (s : String) : String :=
  ⟨s.data.takeWhile (fun c => !(c == '\n') && !(c == '\r'))⟩

/-- Digit-list parser backing the model of Python `int()`: all characters must
be decimal digits and there must be at least one. -/
def parseDigits (ds : List Char) : Option Nat :=
  if ds = [] then none
  else if ds.all Char.isDigit then
    some (ds.foldl (fun n c => 10 * n + (c.toNat - 48)) 0)
  else none

/-- Python `int()` on a whitespace-stripped character list: an optional sign
followed by decimal digits.  The model is sound for acceptance — everything it
accepts, Python accepts with the same value — but under-approximates rejection:
Python additionally accepts underscore digit grouping, non-ASCII Unicode
decimal digits and wider Unicode whitespace.  On text of `plainChar`
characters the model agrees with Python exactly. -/
def pyIntChars : List Char → Option Int
  | '-' :: ds => (parseDigits ds).map (fun n => -(n : Int))
  | '+' :: ds => (parseDigits ds).map (fun n => (n : Int))
  | ds => (parseDigits ds).map (fun n => (n : Int))

/-- `string_to_int(value)`: Python `int(value.replace(',', ''))` — every comma
is removed, then the text is parsed as an integer (see `pyIntChars` for the
exact scope of the `int()` model). -/
def string_to_int (value : String) : Option Int :=
  pyIntChars (stripList isSpace (value.data.filter (fun c => !(c == ','))))

/-- Printable ASCII without the underscore.  On strings of such characters the
`int()` model above is exact: of these characters Python strips only the space,
accepts only an optional sign and the ASCII digits, and allows no underscore
grouping — so `string_to_int` returns `none` exactly when `int()` raises. -/
def plainChar (c : Char) : Bool :=
  decide (32 ≤ c.toNat) && decide (c.toNat ≤ 126) && !(c == '_')

/-- `convert_to_thai_year(year)`: shortened Thai year. -/
def convert_to_thai_year (year : Int) : Int := (year + 543) - 2500

/-- Decimal digit character for a value below ten. -/
def digitChar (d : Nat) : Char := Char.ofNat (48 + d)

/-- Decimal rendering of a natural number (fuel-based so it is structurally
recursive; the fuel is always sufficient at `n + 1`). -/
def natDigitsAux : Nat → Nat → List Char
  | 0, _ => []
  | fuel + 1, n =>
    if n < 10 then [digitChar n]
    else natDigitsAux fuel (n / 10) ++ [digitChar (n % 10)]

/-- Python `str(i)` for an integer: optional minus sign and decimal digits. -/
def pyStrInt (i : Int) : String :=
  if i < 0 then ⟨'-' :: natDigitsAux (i.natAbs + 1) i.natAbs⟩
  else ⟨natDigitsAux (i.natAbs + 1) i.natAbs⟩

/-- The URL built by `get_data_stat_by_year`, embedding the Thai year twice. -/
def statUrl (year : Int) : String :=
  "https://stat.bora.dopa.go.th/new_stat/file/" ++ pyStrInt (convert_to_thai_year year)
    ++ "/stat_c" ++ pyStrInt (convert_to_thai_year year) ++ ".txt"

/-- The type `Result[T, E]` of the Python result library, with constructors `Ok` and `Err`. -/
inductive PyResult (α ε : Type) : Type
  | Ok (v : α)
  | Err (e : ε)
deriving DecidableEq

/-- A `requests` HTTP response: status code and body text; `response.ok` is
`status_code < 400`. -/
structure Response where
  status_code : Nat
  text : String
deriving DecidableEq

/-- `response.ok` from the `requests` library. -/
def Response.ok (r : Response) : Bool := decide (r.status_code < 400)

/-- `get_data_stat_by_year(year)`.  `requests.get` is an oracle that either
raises (an `Except.error`, which the function does not catch and therefore
propagates) or returns a `Response`; a non-ok response yields `Err`, an ok
response yields `Ok`, each carrying `response.text`. -/
def get_data_stat_by_year (get : String → Except String Response) (year : Int) :
    Except String (PyResult String String) :=
  match get (statUrl year) with
  | Except.error e => Except.error e
  | Except.ok response =>
    if !response.ok then Except.ok (PyResult.Err response.text)
    else Except.ok (PyResult.Ok response.text)

/-- One row of the `thai_population` table, in the column order of the
`CREATE TABLE` statement:

data_year INTEGER, yymm VARCHAR, cc_code INTEGER, cc_desc VARCHAR,
rcode_code VARCHAR, rcode_desc VARCHAR, ccaatt_code VARCHAR,
ccaatt_desc VARCHAR, ccaattmm_code VARCHAR, ccaattmm_desc VARCHAR,
male INTEGER, female INTEGER, total INTEGER, house INTEGER,
PRIMARY KEY (data_year, cc_code). -/
structure Row where
  data_year : Int
  yymm : String
  cc_code : Int
  cc_desc : String
  rcode_code : String
  rcode_desc : String
  ccaatt_code : String
  ccaatt_desc : String
  ccaattmm_code : String
  ccaattmm_desc : String
  male : Int
  female : Int
  total : Int
  house : Int
deriving DecidableEq

/-- `create_duck_db_table()`: creates the (empty) `thai_population` table; the
schema and its primary key live in `Row` and `insertRow`. -/
def create_duck_db_table : List Row := []

/-- The body of the per-line loop of the driver (over `table.splitlines()`):
strip pipes, split on the pipe into exactly thirteen fields (the tuple unpack
raises on any other count, modelled as `none`), and coerce the five numeric
fields with `string_to_int` (which raises on non-numeric text, modelled as
`none`).  A successful line yields the argument tuple of
`generate_insert_sql`. -/
def processLine (year : Int) (row : String) : Option Row :=
  match extract_row (stripPipe row) with
  | [yymm, cc_code, cc_desc, rcode_code, rcode_desc, ccaatt_code, ccaatt_desc,
     ccaattmm_code, ccaattmm_desc, male_str, female_str, total_str, house_str] =>
    match string_to_int cc_code, string_to_int male_str, string_to_int female_str,
          string_to_int total_str, string_to_int house_str with
    | some cc, some male, some female, some total, some house =>
      some ⟨year, yymm, cc, cc_desc, rcode_code, rcode_desc, ccaatt_code,
            ccaatt_desc, ccaattmm_code, ccaattmm_desc, male, female, total, house⟩
    | _, _, _, _, _ => none
  | _ => none

/-- The five numeric fields of a line, in the order cc_code, male, female,
total, house (positions 1, 9, 10, 11, 12 of the thirteen-field split). -/
def numericFields (row : String) : List String :=
  [(extract_row (stripPipe row)).getD 1 "", (extract_row (stripPipe row)).getD 9 "",
   (extract_row (stripPipe row)).getD 10 "", (extract_row (stripPipe row)).getD 11 "",
   (extract_row (stripPipe row)).getD 12 ""]

/-- The diagnostic DuckDB raises on a duplicate-key insert. -/
def duckdbDupKeyMsg : String :=
  "Constraint Error: Duplicate key violates primary key constraint"

/-- Whether the (data_year, cc_code) key of a row already occurs in the table. -/
def pkConflict (t : List Row) (r : Row) : Bool :=
  t.any fun q => q.data_year == r.data_year && q.cc_code == r.cc_code

/-- Models DuckDB `INSERT INTO thai_population VALUES (...)` against the
declared `PRIMARY KEY (data_year, cc_code)`: DuckDB enforces primary keys on
insert, raising a constraint error on a duplicate key and appending the row
otherwise. -/
def insertRow (t : List Row) (r : Row) : Except String (List Row) :=
  if pkConflict t r then Except.error duckdbDupKeyMsg
  else Except.ok (t ++ [r])

/-- The per-body row loop of the driver over the current table: each line is
parsed (`processLine`; an unhandled parse exception aborts the run) and its
row passed to `duckdb.sql` (`insertRow`; an unhandled duplicate-key constraint
error aborts the run as well).  Returns the rows inserted before the first
failure, in order, and whether the run aborted. -/
def processLines (year : Int) : List Row → List String → List Row × Bool
  | _, [] => ([], false)
  | t, l :: ls =>
    match processLine year l with
    | none => ([], true)
    | some r =>
      match insertRow t r with
      | Except.error _ => ([], true)
      | Except.ok t2 =>
        (r :: (processLines year t2 ls).1, (processLines year t2 ls).2)

/-- Rows loaded from one cleaned body into the given table, plus the abort
flag (parse failure or duplicate-key insert failure). -/
def processBody (year : Int) (t : List Row) (cleaned : String) : List Row × Bool :=
  processLines year t (pySplitlines cleaned)

/-- Observable driver events: a year processed (with the rows loaded and
whether a parse failure aborted the run there) or the exporter invocation. -/
inductive DriverEv : Type
  | processed (year : Int) (rows : List Row) (aborted : Bool)
  | exported
deriving DecidableEq

/-- The module-level driver loop, over a fetch oracle standing for
`get_data_stat_by_year`, threading the accumulated table: starting from a
year, fetch; on `Err` break out and run the exporter; on `Ok` clean the body
and insert its rows into the table, aborting the whole run (exporter never
reached) on a parse failure or a duplicate-key insert failure, otherwise
continue with the next year on the grown table.  The fuel only bounds the
number of iterations modelled; an exhausted fuel yields the empty trace. -/
def driverRun (fetch : Int → PyResult String String) :
    Nat → Int → List Row → List DriverEv
  | 0, _, _ => []
  | fuel + 1, year, t =>
    match fetch year with
    | PyResult.Err _ => [DriverEv.exported]
    | PyResult.Ok value =>
      if (processBody year t (clean_text value)).2 then
        [DriverEv.processed year (processBody year t (clean_text value)).1 true]
      else
        DriverEv.processed year (processBody year t (clean_text value)).1 false ::
          driverRun fetch fuel (year + 1) (t ++ (processBody year t (clean_text value)).1)

/-- Years recorded as processed in a driver trace, in order. -/
def processedYears (tr : List DriverEv) : List Int :=
  tr.filterMap fun e =>
    match e with
    | DriverEv.processed y _ _ => some y
    | DriverEv.exported => none

/-- Recognizer for the exporter event. -/
def isExportEv : DriverEv → Bool
  | DriverEv.exported => true
  | _ => false

/-- Number of exporter invocations in a driver trace. -/
def exportCount (tr : List DriverEv) : Nat := tr.countP isExportEv

/-- The consecutive years `y, y+1, ..., y+n-1`. -/
def intRange : Int → Nat → List Int
  | _, 0 => []
  | y, n + 1 => y :: intRange (y + 1) n

/-- The (data_year, cc_code) primary-key uniqueness invariant. -/
def pkUnique (t : List Row) : Prop :=
  t.Pairwise fun a b => ¬(a.data_year = b.data_year ∧ a.cc_code = b.cc_code)

/-- The distinct `data_year` values of the table, in first-occurrence order. -/
def partitionYears (t : List Row) : List Int :=
  (t.map Row.data_year).dedup

/-- Models `write_into_hive_partition()`: DuckDB
`COPY thai_population TO ./datasets/thai_population` with options FORMAT
PARQUET, PARTITION_BY (data_year), OVERWRITE_OR_IGNORE, COMPRESSION GZIP and
FILE_EXTENSION parquet.gz performs a hive-partitioned write, creating the
target directory tree and one `data_year=<value>` subdirectory per distinct
`data_year`, each holding at least one data file with the configured
extension.  The result lists the paths of the files written. -/
def write_into_hive_partition (t : List Row) : List String :=
  (partitionYears t).map fun y =>
    "./datasets/thai_population/data_year=" ++ pyStrInt y ++ "/data_0.parquet.gz"

/-- `generate_insert_sql(...)`: renders the fourteen-value f-string template
(INSERT INTO thai_population VALUES, one single-quoted value per line), with
every argument spliced verbatim between single quotes and integers rendered
by `str`.  No escaping of any kind is performed. -/
def generate_insert_sql (data_year : Int) (yymm : String) (cc_code : Int)
    (cc_desc rcode_code rcode_desc ccaatt_code ccaatt_desc ccaattmm_code
     ccaattmm_desc : String) (male female total house : Int) : String :=
  "INSERT INTO thai_population\nVALUES (\n    \x27" ++ pyStrInt data_year
    ++ "\x27,\n    \x27" ++ yymm
    ++ "\x27,\n    \x27" ++ pyStrInt cc_code
    ++ "\x27,\n    \x27" ++ cc_desc
    ++ "\x27,\n    \x27" ++ rcode_code
    ++ "\x27,\n    \x27" ++ rcode_desc
    ++ "\x27,\n    \x27" ++ ccaatt_code
    ++ "\x27,\n    \x27" ++ ccaatt_desc
    ++ "\x27,\n    \x27" ++ ccaattmm_code
    ++ "\x27,\n    \x27" ++ ccaattmm_desc
    ++ "\x27,\n    \x27" ++ pyStrInt male
    ++ "\x27,\n    \x27" ++ pyStrInt female
    ++ "\x27,\n    \x27" ++ pyStrInt total
    ++ "\x27,\n    \x27" ++ pyStrInt house
    ++ "\x27\n)"

/-- Reference reading of a single-quoted SQL string literal, after the opening
quote: characters up to the closing quote, with the doubled quote as the only
escape.  Returns the value of the literal and the remaining text. -/
def scanLit : List Char → Option (List Char × List Char)
  | [] => none
  | c :: rest =>
    if c = '\x27' then
      match rest with
      | c2 :: rest2 =>
        if c2 = '\x27' then (scanLit rest2).map fun p => ('\x27' :: p.1, p.2)
        else some ([], rest)
      | [] => some ([], rest)
    else (scanLit rest).map fun p => (c :: p.1, p.2)

/-- Whitespace between tokens of the generated SQL. -/
def skipWs (l : List Char) : List Char :=
  l.dropWhile fun c => c == ' ' || c == '\n'

/-- Reference reading of the parenthesized VALUES list: a comma-separated
sequence of single-quoted literals ending with a closing parenthesis and no
trailing text.  The fuel bounds the number of values. -/
def scanVals : Nat → List Char → Option (List (List Char))
  | 0, _ => none
  | n + 1, cs =>
    match skipWs cs with
    | c :: rest =>
      if c = '\x27' then
        match scanLit rest with
        | some (v, r) =>
          match skipWs r with
          | ',' :: r2 =>
            match scanVals n r2 with
            | some vs => some (v :: vs)
            | none => none
          | ')' :: r3 => if skipWs r3 = [] then some [v] else none
          | _ => none
        | none => none
      else none
    | [] => none

/-- The fixed text prefix of every generated insert statement. -/
def insertHeaderChars : List Char := ("INSERT INTO thai_population\nVALUES (").data

/-- Reference interpretation of a generated SQL text as a single-row insertion
into `thai_population`: the statement denotes the insertion of exactly the
returned values (in column order), or fails to be a well-formed single-row
insertion (`none`). -/
def parseInsert (s : String) : Option (List String) :=
  if s.data.take insertHeaderChars.length = insertHeaderChars then
    match scanVals 14 (s.data.drop insertHeaderChars.length) with
    | some vs => some (vs.map fun l => ⟨l⟩)
    | none => none
  else none

/-- Rebuilding a string from its characters is the identity. -/
theorem strMk_data (s : String) : (⟨s.data⟩ : String) = s := by
  cases s
  rfl

/-- C4: for every Gregorian year the derived Thai year is `(Y + 543) - 2500`
(in particular `thai_year 1993 = 36`), and the fetch URL is exactly
`https://stat.bora.dopa.go.th/new_stat/file/{thai}/stat_c{thai}.txt` with the
derived year embedded twice. -/
theorem spec_C4_thm :
    (∀ y : Int, convert_to_thai_year y = (y + 543) - 2500)
    ∧ convert_to_thai_year 1993 = 36
    ∧ statUrl 1993 = "https://stat.bora.dopa.go.th/new_stat/file/36/stat_c36.txt"
    ∧ (∀ y : Int,
        statUrl y = "https://stat.bora.dopa.go.th/new_stat/file/"
          ++ pyStrInt (convert_to_thai_year y) ++ "/stat_c"
          ++ pyStrInt (convert_to_thai_year y) ++ ".txt") :=
  ⟨fun _ => rfl, by decide, by decide, fun _ => rfl⟩

/-- C5: extracting and coercing the well-formed thirteen-field line
`"|yymm|001|...|1,234|"` yields `cc_code = 1` and `male = 1234` as integers,
and in general `string_to_int` removes thousands-separator commas before
parsing. -/
theorem spec_C5_thm :
    string_to_int "001" = some 1
    ∧ string_to_int "1,234" = some 1234
    ∧ processLine 1993 "|yymm|001|a|b|c|d|e|f|g|1,234|5|6|7|" =
        some ⟨1993, "yymm", 1, "a", "b", "c", "d", "e", "f", "g", 1234, 5, 6, 7⟩
    ∧ (∀ a b : String, string_to_int (a ++ "," ++ b) = string_to_int (a ++ b)) := by
  refine ⟨by decide, by decide, by decide, ?_⟩
  intro a b
  have h1 : (a ++ "," ++ b).data = a.data ++ ',' :: b.data := by
    simp [String.data_append]
  have h2 : (a ++ b).data = a.data ++ b.data := String.data_append a b
  have hc : ((',' : Char) == ',') = true := rfl
  simp [string_to_int, h1, h2, List.filter_append, List.filter_cons, hc]

/-- C2 (amended): whenever the underlying GET returns a response, the Fetcher
returns a result carrying the body on a success status and the error payload
on a non-success status — `Err` exactly when `response.ok` is false; a
transport-level exception raised by the GET itself, however, propagates
through `get_data_stat_by_year` uncaught. -/
theorem spec_C2_thm (get : String → Except String Response) (year : Int) :
    (∀ e, get (statUrl year) = Except.error e →
      get_data_stat_by_year get year = Except.error e)
    ∧ (∀ r, get (statUrl year) = Except.ok r →
        (get_data_stat_by_year get year = Except.ok (PyResult.Err r.text) ↔ r.ok = false))
    ∧ (∀ r, get (statUrl year) = Except.ok r →
        (get_data_stat_by_year get year = Except.ok (PyResult.Ok r.text) ↔ r.ok = true)) := by
  refine ⟨?_, ?_, ?_⟩
  · intro e he
    simp [get_data_stat_by_year, he]
  · intro r hr
    cases hok : r.ok <;> simp [get_data_stat_by_year, hr, hok]
  · intro r hr
    cases hok : r.ok <;> simp [get_data_stat_by_year, hr, hok]

/-- Oracle standing for a `requests.get` that raises a network exception. -/
def getBoom : String → Except String Response :=
  fun _ => Except.error "connection refused"

/-- C2 counterexample: with a GET that raises a transport exception, the
Fetcher propagates the exception instead of returning a result value, so it
does not hold that it never propagates an exception past its boundary. -/
theorem spec_C2_cex :
    get_data_stat_by_year getBoom 1993 = Except.error "connection refused"
    ∧ (get_data_stat_by_year getBoom 1993).isOk = false :=
  ⟨rfl, rfl⟩

/-- Oracle standing for a `requests.get` that returns HTTP 404. -/
def getNotFound : String → Except String Response :=
  fun _ => Except.ok ⟨404, "not found"⟩

/-- C2 witness: a 404 response is returned as the failure variant carrying the
error payload of the response. -/
theorem spec_C2_w :
    get_data_stat_by_year getNotFound 1993 = Except.ok (PyResult.Err "not found") := by
  exact ((spec_C2_thm getNotFound 1993).2.1 ⟨404, "not found"⟩ rfl).mpr rfl

/-- C6: after any loader step the (data_year, cc_code) key stays unique — a
successful insert preserves the invariant — and a duplicate-key insert is a
detected violation: DuckDB rejects it with a constraint error, never silently
accepting it. -/
theorem spec_C6_thm (t : List Row) (r : Row) (hu : pkUnique t) :
    (∀ u, insertRow t r = Except.ok u → pkUnique u)
    ∧ (pkConflict t r = true → insertRow t r = Except.error duckdbDupKeyMsg)
    ∧ ((∃ q ∈ t, q.data_year = r.data_year ∧ q.cc_code = r.cc_code) →
        ∀ u, insertRow t r ≠ Except.ok u) := by
  refine ⟨?_, ?_, ?_⟩
  · intro u hins
    by_cases h : pkConflict t r = true
    · rw [insertRow, if_pos h] at hins
      exact absurd hins (by simp)
    · rw [insertRow, if_neg h] at hins
      have hu2 : t ++ [r] = u := by
        injection hins
      subst hu2
      have hnc : ∀ q ∈ t, ¬(q.data_year = r.data_year ∧ q.cc_code = r.cc_code) := by
        intro q hq hqc
        refine h ?_
        simp only [pkConflict, List.any_eq_true]
        exact ⟨q, hq, by simp [hqc.1, hqc.2]⟩
      unfold pkUnique at hu ⊢
      rw [List.pairwise_append]
      refine ⟨hu, by simp, ?_⟩
      intro a ha b hb
      simp only [List.mem_singleton] at hb
      subst hb
      exact hnc a ha
  · intro hc
    rw [insertRow, if_pos hc]
  · intro hex u
    have hc : pkConflict t r = true := by
      obtain ⟨q, hq, h1, h2⟩ := hex
      simp only [pkConflict, List.any_eq_true]
      exact ⟨q, hq, by simp [h1, h2]⟩
    rw [insertRow, if_pos hc]
    simp

/-- A sample loaded row. -/
def sampleRow : Row := ⟨1993, "9301", 1, "a", "b", "c", "d", "e", "f", "g", 1, 2, 3, 4⟩

/-- C6 witness: re-inserting a row whose (data_year, cc_code) key is already
present is rejected with the duplicate-key constraint error. -/
theorem spec_C6_w :
    insertRow [sampleRow] sampleRow = Except.error duckdbDupKeyMsg :=
  (spec_C6_thm [sampleRow] sampleRow (by simp [pkUnique])).2.1 (by decide)

/-- The head surviving a `dropWhile` does not satisfy the predicate. -/
theorem head_dropWhile_false (p : Char → Bool) (l : List Char) (a : Char)
    (h : (l.dropWhile p).head? = some a) : p a = false := by
  induction l with
  | nil => simp [List.dropWhile] at h
  | cons c cl ih =>
    rw [List.dropWhile_cons] at h
    by_cases hpc : p c = true
    · rw [if_pos hpc] at h
      exact ih h
    · rw [if_neg hpc] at h
      simp only [List.head?_cons, Option.some.injEq] at h
      subst h
      exact Bool.not_eq_true _ |>.mp hpc

/-- Dropping a trailing run (via reverse) leaves a prefix of the list. -/
theorem stripTrailing_front (p : Char → Bool) (l : List Char) :
    (l.reverse.dropWhile p).reverse <+: l := by
  obtain ⟨t, ht⟩ := List.dropWhile_suffix (l := l.reverse) p
  exact ⟨t.reverse, by rw [← List.reverse_append, ht, List.reverse_reverse]⟩

/-- A list whose head does not satisfy `p` is unchanged by `dropWhile p`. -/
theorem dropWhile_id_of_head (p : Char → Bool) (l : List Char)
    (h : ∀ a, l.head? = some a → p a = false) : l.dropWhile p = l := by
  cases l with
  | nil => rfl
  | cons c cl =>
    rw [List.dropWhile_cons, if_neg]
    simp [h c rfl]

/-- `takeWhile` over an append stops inside the left part if some element
there falsifies the predicate. -/
theorem takeWhile_append_stop (p : Char → Bool) (l1 l2 : List Char)
    (h : ∃ x ∈ l1, p x = false) : (l1 ++ l2).takeWhile p = l1.takeWhile p := by
  induction l1 with
  | nil =>
    obtain ⟨x, hx, _⟩ := h
    exact absurd hx (List.not_mem_nil x)
  | cons c cl ih =>
    by_cases hpc : p c = true
    · obtain ⟨x, hx, hpx⟩ := h
      rcases List.mem_cons.mp hx with rfl | hx2
      · rw [hpc] at hpx
        exact absurd hpx (by simp)
      · simp [List.takeWhile_cons, hpc, ih ⟨x, hx2, hpx⟩]
    · have : p c = false := Bool.not_eq_true _ |>.mp hpc
      simp [List.takeWhile_cons, this]

/-- Strings with equal character lists are equal. -/
theorem strData_inj (x y : String) (h : x.data = y.data) : x = y := by
  calc x = ⟨x.data⟩ := (strMk_data x).symm
    _ = ⟨y.data⟩ := congrArg _ h
    _ = y := strMk_data y

/-- C9 (amended): cleaning strips the byte-order-mark from both ends, so the
cleaned text (and hence its first line) never starts with a BOM; and for a
body with no leading BOM the first line is unchanged by cleaning provided the
body contains a line break or does not end in a BOM — a break-free body
ending in a BOM has its (single) line shortened, because Python `strip` also
removes trailing BOM characters. -/
theorem spec_C9_thm :
    (∀ t : String, (clean_text t).data.head? ≠ some '﻿')
    ∧ (∀ t : String, (firstLine (clean_text t)).data.head? ≠ some '﻿')
    ∧ (∀ t : String, t.data.head? ≠ some '﻿' →
        ((∃ c ∈ t.data, c = '\n' ∨ c = '\r') ∨ t.data.getLast? ≠ some '﻿') →
        firstLine (clean_text t) = firstLine t) := by
  have hclean : ∀ t : String, (clean_text t).data.head? ≠ some '﻿' := by
    intro t h
    obtain ⟨t2, ht2⟩ := stripTrailing_front isBOM (t.data.dropWhile isBOM)
    set r := ((t.data.dropWhile isBOM).reverse.dropWhile isBOM).reverse with hr
    have hdata : (clean_text t).data = r := rfl
    rw [hdata] at h
    cases hrc : r with
    | nil => rw [hrc] at h; exact absurd h (by simp)
    | cons a r2 =>
      rw [hrc] at h
      simp only [List.head?_cons, Option.some.injEq] at h
      subst h
      rw [hrc] at ht2
      have hhead : (t.data.dropWhile isBOM).head? = some '﻿' := by
        rw [← ht2]
        rfl
      have := head_dropWhile_false isBOM t.data _ hhead
      simp [isBOM] at this
  refine ⟨hclean, ?_, ?_⟩
  · intro t h
    apply hclean t
    have hdata : (firstLine (clean_text t)).data
        = (clean_text t).data.takeWhile (fun c => !(c == '\n') && !(c == '\r')) := rfl
    rw [hdata] at h
    cases hd : (clean_text t).data with
    | nil => rw [hd] at h; simp at h
    | cons c cl =>
      rw [hd] at h
      rw [List.takeWhile_cons] at h
      by_cases hc : (!(c == '\n') && !(c == '\r')) = true
      · rw [if_pos hc] at h
        simp only [List.head?_cons, Option.some.injEq] at h
        subst h
        simp
      · rw [if_neg hc] at h
        simp at h
  · intro t hhead hcase
    have hlead : t.data.dropWhile isBOM = t.data := by
      apply dropWhile_id_of_head
      intro a ha
      by_cases hb : isBOM a = true
      · simp only [isBOM, beq_iff_eq] at hb
        subst hb
        exact absurd ha hhead
      · exact Bool.not_eq_true _ |>.mp hb
    have hsplit := List.takeWhile_append_dropWhile isBOM t.data.reverse
    set tk := t.data.reverse.takeWhile isBOM with htk
    set d := t.data.reverse.dropWhile isBOM with hdd
    have hL : t.data = d.reverse ++ tk.reverse := by
      rw [← List.reverse_append, hsplit, List.reverse_reverse]
    have hdata : (clean_text t).data = d.reverse := by
      show stripList isBOM t.data = d.reverse
      rw [stripList, hlead]
    have htkBOM : ∀ c ∈ tk.reverse, c = '﻿' := by
      intro c hc
      have := List.mem_takeWhile_imp (List.mem_reverse.mp hc)
      simpa [isBOM] using this
    apply strData_inj
    show ((clean_text t).data.takeWhile (fun c => !(c == '\n') && !(c == '\r')))
        = (t.data.takeWhile (fun c => !(c == '\n') && !(c == '\r')))
    rw [hdata]
    rcases hcase with ⟨c, hc, hbr⟩ | hlast
    · have hcr : c ∈ d.reverse := by
        rw [hL] at hc
        rcases List.mem_append.mp hc with h1 | h1
        · exact h1
        · have := htkBOM c h1
          subst this
          rcases hbr with h2 | h2 <;> exact absurd h2 (by decide)
      conv => rhs; rw [hL]
      rw [takeWhile_append_stop]
      exact ⟨c, hcr, by rcases hbr with h2 | h2 <;> subst h2 <;> decide⟩
    · have htknil : tk = [] := by
        cases hLr : t.data.reverse with
        | nil => rw [htk, hLr]; rfl
        | cons a as =>
          have hga : t.data.getLast? = some a := by
            rw [← List.head?_reverse, hLr]
            rfl
          have hne : a ≠ '﻿' := by
            intro hab
            rw [hab] at hga
            exact hlast hga
          rw [htk, hLr, List.takeWhile_cons, if_neg]
          simp [isBOM, hne]
      conv => rhs; rw [hL, htknil]
      simp

/-- C9 counterexample: the body "a﻿" (no leading BOM, no line break, trailing
BOM) has its first line changed by cleaning, refuting the unconditional claim
that a body without a leading BOM keeps its first line unchanged. -/
theorem spec_C9_cex :
    ("a﻿" : String).data.head? ≠ some '﻿'
    ∧ firstLine (clean_text "a﻿") ≠ firstLine "a﻿" := by
  exact ⟨by decide, by decide⟩

/-- C9 witness: a body with a line break keeps its first line across
cleaning even though it ends in a BOM. -/
theorem spec_C9_w :
    firstLine (clean_text "hello\nworld﻿") = firstLine "hello\nworld﻿" :=
  spec_C9_thm.2.2 "hello\nworld﻿" (by decide) (Or.inl (by decide))

/-- C3: each line is stripped of leading/trailing pipes and split on the pipe;
when the lines before a malformed line parse and insert cleanly, a line that
does not yield exactly thirteen fields — or whose numeric field (restricted to
plain printable-ASCII text, on which the `int()` model is exact) fails the
numeric coercion after comma removal — aborts the run at that line: every
earlier row of the body is loaded (none skipped) and no later row of the body
is loaded. -/
theorem spec_C3_thm (year : Int) (t : List Row) (pre : List String) (bad : String)
    (post : List String)
    (hpre : processLines year t pre = (pre.filterMap (processLine year), false))
    (hbad : (extract_row (stripPipe bad)).length ≠ 13
      ∨ (processLine year bad = none
         ∧ (numericFields bad).all (fun f => f.data.all plainChar) = true)) :
    processLines year t (pre ++ bad :: post) = (pre.filterMap (processLine year), true)
    ∧ (pre.filterMap (processLine year)).length = pre.length
    ∧ (∀ row : String, (extract_row (stripPipe row)).length ≠ 13 →
        processLine year row = none) := by
  have hcount : ∀ row : String, (extract_row (stripPipe row)).length ≠ 13 →
      processLine year row = none := by
    intro row h13
    unfold processLine
    generalize extract_row (stripPipe row) = l at h13 ⊢
    rcases l with _ | ⟨a1, _ | ⟨a2, _ | ⟨a3, _ | ⟨a4, _ | ⟨a5, _ | ⟨a6, _ | ⟨a7, _ | ⟨a8,
      _ | ⟨a9, _ | ⟨a10, _ | ⟨a11, _ | ⟨a12, _ | ⟨a13, _ | ⟨a14, l⟩⟩⟩⟩⟩⟩⟩⟩⟩⟩⟩⟩⟩⟩
    all_goals first
      | rfl
      | simp at h13
  have hbadnone : processLine year bad = none := by
    rcases hbad with h | h
    · exact hcount bad h
    · exact h.1
  have hmain : ∀ (q : List String) (u : List Row),
      processLines year u q = (q.filterMap (processLine year), false) →
      processLines year u (q ++ bad :: post) = (q.filterMap (processLine year), true)
      ∧ (q.filterMap (processLine year)).length = q.length := by
    intro q
    induction q with
    | nil =>
      intro u _
      refine ⟨?_, rfl⟩
      show processLines year u (bad :: post) = ([], true)
      simp [processLines, hbadnone]
    | cons l q ih =>
      intro u hu
      cases hl : processLine year l with
      | none =>
        simp only [processLines, hl] at hu
        exact absurd hu (by simp)
      | some r =>
        cases hins : insertRow u r with
        | error e =>
          simp only [processLines, hl, hins] at hu
          exact absurd hu (by simp)
        | ok u2 =>
          simp only [processLines, hl, hins, List.filterMap_cons] at hu
          have e1 := congrArg Prod.fst hu
          have e2 := congrArg Prod.snd hu
          simp at e1 e2
          have hq := ih u2 (Prod.ext_iff.mpr ⟨e1, e2⟩)
          constructor
          · show processLines year u (l :: (q ++ bad :: post)) = _
            simp only [processLines, hl, hins]
            rw [hq.1]
            simp [List.filterMap_cons, hl]
          · simp [List.filterMap_cons, hl, hq.2]
  exact ⟨(hmain pre t hpre).1, (hmain pre t hpre).2, hcount⟩

/-- A well-formed record line. -/
def goodLine : String := "|9301|001|a|b|c|d|e|f|g|1,234|5|6|7|"

/-- A malformed record line (three fields only). -/
def badLine : String := "|bad|line|"

/-- The row parsed from `goodLine` at year 1993. -/
def goodRow : Row := ⟨1993, "9301", 1, "a", "b", "c", "d", "e", "f", "g", 1234, 5, 6, 7⟩

/-- C3 witness: with a malformed second line, the first row is loaded, the
run aborts, and the well-formed third line is never loaded. -/
theorem spec_C3_w :
    processLines 1993 create_duck_db_table
      [goodLine, badLine, "|9301|002|a|b|c|d|e|f|g|1|2|3|4|"] = ([goodRow], true) := by
  have h := (spec_C3_thm 1993 create_duck_db_table [goodLine] badLine
    ["|9301|002|a|b|c|d|e|f|g|1|2|3|4|"] (by decide) (Or.inl (by decide))).1
  exact h.trans (by decide)

/-- A successfully parsed line carries the supplied year. -/
theorem processLine_year (year : Int) (l : String) (r : Row)
    (h : processLine year l = some r) : r.data_year = year := by
  unfold processLine at h
  split at h
  · split at h
    · injection h with h2
      subst h2
      rfl
    · exact absurd h (by simp)
  · exact absurd h (by simp)

/-- Every row the per-body loop inserts carries the supplied year. -/
theorem processLines_year (year : Int) :
    ∀ (ls : List String) (t : List Row) (r : Row),
    r ∈ (processLines year t ls).1 → r.data_year = year := by
  intro ls
  induction ls with
  | nil =>
    intro t r hr
    simp [processLines] at hr
  | cons l ls ih =>
    intro t r hr
    cases hl : processLine year l with
    | none => simp [processLines, hl] at hr
    | some r0 =>
      cases hins : insertRow t r0 with
      | error e => simp [processLines, hl, hins] at hr
      | ok t2 =>
        simp only [processLines, hl, hins] at hr
        rcases List.mem_cons.mp hr with rfl | hr2
        · exact processLine_year year l _ hl
        · exact ih t2 r hr2

/-- Driver loop unwinding: starting from a table whose rows all predate the
current year, if the oracle succeeds on the `n` years from `y` with bodies
that neither fail to parse nor hit a duplicate key (against any table free of
rows of that year), and fails at `y + n`, the trace (given enough fuel)
processes exactly those years in order and ends with the single exporter
event. -/
theorem driverRun_exhaust (fetch : Int → PyResult String String) :
    ∀ (n : Nat) (y : Int) (fuel : Nat) (t : List Row), n < fuel →
    (∀ q ∈ t, q.data_year < y) →
    (∀ z : Int, y ≤ z → z < y + (n : Int) →
      ∃ b, fetch z = PyResult.Ok b ∧
        ∀ u : List Row, (∀ q ∈ u, q.data_year ≠ z) →
          (processBody z u (clean_text b)).2 = false) →
    (∃ e, fetch (y + (n : Int)) = PyResult.Err e) →
    processedYears (driverRun fetch fuel y t) = intRange y n
    ∧ exportCount (driverRun fetch fuel y t) = 1
    ∧ (driverRun fetch fuel y t).getLast? = some DriverEv.exported := by
  intro n
  induction n with
  | zero =>
    intro y fuel t hf hinv hok herr
    obtain ⟨e, he⟩ := herr
    obtain ⟨m, rfl⟩ : ∃ m, fuel = m + 1 := ⟨fuel - 1, by omega⟩
    rw [show y + ((0 : Nat) : Int) = y by omega] at he
    simp [driverRun, he, processedYears, exportCount, intRange, isExportEv]
  | succ k ih =>
    intro y fuel t hf hinv hok herr
    obtain ⟨m, rfl⟩ : ∃ m, fuel = m + 1 := ⟨fuel - 1, by omega⟩
    obtain ⟨b, hb, hcl⟩ := hok y le_rfl (by push_cast; omega)
    have habort : (processBody y t (clean_text b)).2 = false := by
      refine hcl t ?_
      intro q hq
      have := hinv q hq
      omega
    have hinv2 : ∀ q ∈ t ++ (processBody y t (clean_text b)).1, q.data_year < y + 1 := by
      intro q hq
      rcases List.mem_append.mp hq with h1 | h1
      · have := hinv q h1
        omega
      · have := processLines_year y (pySplitlines (clean_text b)) t q h1
        omega
    have hnext := ih (y + 1) m (t ++ (processBody y t (clean_text b)).1) (by omega) hinv2
      (by
        intro z h1 h2
        refine hok z (by omega) ?_
        push_cast at h2 ⊢
        omega)
      (by
        obtain ⟨e, he⟩ := herr
        refine ⟨e, ?_⟩
        rw [show (y + 1) + ((k : Nat) : Int) = y + (((k + 1 : Nat)) : Int) by push_cast; ring]
        exact he)
    have htr : driverRun fetch (m + 1) y t
        = DriverEv.processed y (processBody y t (clean_text b)).1 false ::
            driverRun fetch m (y + 1) (t ++ (processBody y t (clean_text b)).1) := by
      simp [driverRun, hb, habort]
    rw [htr]
    have hne : driverRun fetch m (y + 1) (t ++ (processBody y t (clean_text b)).1) ≠ [] := by
      intro hnil
      have := hnext.2.1
      rw [hnil] at this
      simp [exportCount] at this
    refine ⟨?_, ?_, ?_⟩
    · simp only [processedYears, List.filterMap_cons]
      rw [show intRange y (k + 1) = y :: intRange (y + 1) k from rfl]
      have := hnext.1
      simp only [processedYears] at this
      rw [this]
    · simp only [exportCount, List.countP_cons, isExportEv]
      have := hnext.2.1
      simp only [exportCount] at this
      simp [this, isExportEv]
    · cases hcons : driverRun fetch m (y + 1) (t ++ (processBody y t (clean_text b)).1) with
      | nil => exact absurd hcons hne
      | cons ev evs =>
        rw [List.getLast?_cons_cons]
        rw [← hcons]
        exact hnext.2.2

/-- C1 (amended): for every fetch oracle that succeeds on each year 1993..1999
with bodies whose rows all parse and insert without a duplicate
(data_year, cc_code) key (against any table holding no rows of that year), and
fails first at 2000, the driver — starting from the freshly created table —
processes exactly the years 1993 through 1999 in increasing order, stops at
the first fetch failure, and the exporter runs exactly once, as the last
event.  (Without the no-abort condition a success body with a malformed row,
or one whose rows collide on the primary key, kills the run before the
exporter — see the counterexample.) -/
theorem spec_C1_thm (fetch : Int → PyResult String String) (fuel : Nat)
    (hfuel : 8 ≤ fuel)
    (hok : ∀ z : Int, 1993 ≤ z → z < 2000 →
      ∃ b, fetch z = PyResult.Ok b ∧
        ∀ u : List Row, (∀ q ∈ u, q.data_year ≠ z) →
          (processBody z u (clean_text b)).2 = false)
    (herr : ∃ e, fetch 2000 = PyResult.Err e) :
    processedYears (driverRun fetch fuel 1993 create_duck_db_table)
      = [1993, 1994, 1995, 1996, 1997, 1998, 1999]
    ∧ exportCount (driverRun fetch fuel 1993 create_duck_db_table) = 1
    ∧ (driverRun fetch fuel 1993 create_duck_db_table).getLast?
        = some DriverEv.exported := by
  have h := driverRun_exhaust fetch 7 1993 fuel create_duck_db_table (by omega)
    (by
      intro q hq
      simp [create_duck_db_table] at hq)
    (by
      intro z h1 h2
      refine hok z h1 ?_
      push_cast at h2
      omega)
    (by
      obtain ⟨e, he⟩ := herr
      exact ⟨e, by rw [show (1993 : Int) + ((7 : Nat) : Int) = 2000 by norm_num]; exact he⟩)
  refine ⟨?_, h.2.1, h.2.2⟩
  rw [h.1]
  rfl

/-- A fetch stub succeeding with empty (hence abort-free) bodies up to 1999
and failing from 2000 on. -/
def fetchGood : Int → PyResult String String :=
  fun y => if y < 2000 then PyResult.Ok "" else PyResult.Err "exhausted"

/-- C1 witness: under `fetchGood` the driver processes 1993..1999 in order and
exports exactly once, at the end. -/
theorem spec_C1_w :
    processedYears (driverRun fetchGood 10 1993 create_duck_db_table)
      = [1993, 1994, 1995, 1996, 1997, 1998, 1999]
    ∧ exportCount (driverRun fetchGood 10 1993 create_duck_db_table) = 1
    ∧ (driverRun fetchGood 10 1993 create_duck_db_table).getLast?
        = some DriverEv.exported :=
  spec_C1_thm fetchGood 10 (by omega)
    (fun z _ h2 => ⟨"", by show (if z < 2000 then _ else _) = _; rw [if_pos h2],
      fun u _ => rfl⟩)
    ⟨"exhausted", rfl⟩

/-- A fetch stub succeeding on 1993..1999 but with a body whose single line
does not parse. -/
def fetchBad : Int → PyResult String String :=
  fun y => if y < 2000 then PyResult.Ok "x" else PyResult.Err "no data"

/-- Recognizer for the success variant. -/
def isOkR : PyResult String String → Bool
  | PyResult.Ok _ => true
  | PyResult.Err _ => false

/-- C1 counterexample: `fetchBad` succeeds on every year 1993..1999 and fails
first at 2000, yet the driver aborts while parsing the 1993 body: only 1993 is
processed and the exporter never runs, refuting the claim as stated for every
such oracle. -/
theorem spec_C1_cex :
    ([1993, 1994, 1995, 1996, 1997, 1998, 1999] : List Int).all
      (fun y => isOkR (fetchBad y)) = true
    ∧ fetchBad 2000 = PyResult.Err "no data"
    ∧ processedYears (driverRun fetchBad 10 1993 create_duck_db_table) = [1993]
    ∧ exportCount (driverRun fetchBad 10 1993 create_duck_db_table) = 0 := by
  exact ⟨by decide, by decide, by decide, by decide⟩

/-- C7: the exporter writes one partition subdirectory per distinct
`data_year` value of the table (no more, no duplicates), each partition
holding a data file, and every emitted file lives under
`./datasets/thai_population/` with the `parquet.gz` extension indicating both
the columnar format and the compression. -/
theorem spec_C7_thm (t : List Row) :
    (partitionYears t).Nodup
    ∧ (∀ y : Int, y ∈ partitionYears t ↔ y ∈ t.map Row.data_year)
    ∧ write_into_hive_partition t
        = (partitionYears t).map (fun y =>
            "./datasets/thai_population/data_year=" ++ pyStrInt y ++ "/data_0.parquet.gz")
    ∧ (∀ fp ∈ write_into_hive_partition t,
        (∃ rest, fp.data = ("./datasets/thai_population/" : String).data ++ rest)
        ∧ (∃ stem, fp.data = stem ++ (".parquet.gz" : String).data)) := by
  refine ⟨List.nodup_dedup _, fun y => List.mem_dedup, rfl, ?_⟩
  intro fp hfp
  simp only [write_into_hive_partition, List.mem_map] at hfp
  obtain ⟨y, hy, rfl⟩ := hfp
  constructor
  · refine ⟨("data_year=" : String).data ++ (pyStrInt y).data ++ ("/data_0.parquet.gz" : String).data, ?_⟩
    rw [String.data_append, String.data_append]
    rw [show ("./datasets/thai_population/data_year=" : String).data
      = ("./datasets/thai_population/" : String).data ++ ("data_year=" : String).data from rfl]
    simp [List.append_assoc]
  · refine ⟨("./datasets/thai_population/data_year=" : String).data ++ (pyStrInt y).data
      ++ ("/data_0" : String).data, ?_⟩
    rw [String.data_append, String.data_append]
    rw [show ("/data_0.parquet.gz" : String).data
      = ("/data_0" : String).data ++ (".parquet.gz" : String).data from rfl]
    simp [List.append_assoc]

/-- A loaded row for year 1993. -/
def rowA : Row := ⟨1993, "9301", 1, "", "", "", "", "", "", "", 1, 1, 2, 1⟩

/-- A loaded row for year 1994. -/
def rowB : Row := ⟨1994, "9401", 1, "", "", "", "", "", "", "", 1, 1, 2, 1⟩

/-- C7 witness: with rows for 1993 and 1994 loaded, the 1994 partition file is
emitted and carries the compressed-columnar extension. -/
theorem spec_C7_w :
    ∃ stem, ("./datasets/thai_population/data_year=1994/data_0.parquet.gz" : String).data
      = stem ++ ((".parquet.gz" : String)).data :=
  ((spec_C7_thm [rowA, rowB]).2.2.2
    "./datasets/thai_population/data_year=1994/data_0.parquet.gz" (by decide)).2

/-- Every character of the decimal rendering is a digit character. -/
theorem natDigitsAux_mem : ∀ (fuel n : Nat) (c : Char),
    c ∈ natDigitsAux fuel n → ∃ d, d < 10 ∧ c = digitChar d := by
  intro fuel
  induction fuel with
  | zero => intro n c hc; simp [natDigitsAux] at hc
  | succ fuel ih =>
    intro n c hc
    rw [natDigitsAux] at hc
    by_cases h10 : n < 10
    · rw [if_pos h10] at hc
      simp at hc
      exact ⟨n, h10, hc⟩
    · rw [if_neg h10] at hc
      rcases List.mem_append.mp hc with h1 | h1
      · exact ih _ c h1
      · simp at h1
        exact ⟨n % 10, Nat.mod_lt _ (by omega), h1⟩

/-- Digit characters are not the single quote. -/
theorem digitChar_ne (d : Nat) (hd : d < 10) : digitChar d ≠ '\x27' := by
  interval_cases d <;> decide

/-- The rendering of an integer never contains a single quote. -/
theorem pyStrInt_noApos (i : Int) : '\x27' ∉ (pyStrInt i).data := by
  intro h
  rw [pyStrInt] at h
  by_cases hi : i < 0
  · rw [if_pos hi] at h
    rcases List.mem_cons.mp h with h1 | h1
    · exact absurd h1 (by decide)
    · obtain ⟨d, hd, hdc⟩ := natDigitsAux_mem _ _ _ h1
      exact digitChar_ne d hd hdc.symm
  · rw [if_neg hi] at h
    obtain ⟨d, hd, hdc⟩ := natDigitsAux_mem _ _ _ h
    exact digitChar_ne d hd hdc.symm

/-- Scanning a quote-free literal body followed by the closing quote yields
exactly that body, provided the following text does not begin with a quote. -/
theorem scanLit_exact : ∀ (v rest : List Char), '\x27' ∉ v →
    rest.head? ≠ some '\x27' → scanLit (v ++ '\x27' :: rest) = some (v, rest) := by
  intro v
  induction v with
  | nil =>
    intro rest _ hr
    show scanLit ('\x27' :: rest) = some ([], rest)
    cases rest with
    | nil => rfl
    | cons c2 r2 =>
      have hc2 : ¬c2 = '\x27' := fun h => hr (by
        rw [h]
        rfl)
      rw [scanLit.eq_def]
      simp [hc2]
  | cons c v ih =>
    intro rest hv hr
    have hc : ¬c = '\x27' := fun h => hv (h ▸ List.mem_cons_self c v)
    have hv2 : '\x27' ∉ v := fun h => hv (List.mem_cons_of_mem c h)
    show scanLit (c :: (v ++ '\x27' :: rest)) = some (c :: v, rest)
    rw [scanLit.eq_def]
    simp [hc, ih rest hv2 hr]

/-- The tail of a generated insert statement after the first opening quote:
the values, each closed by a quote, separated by a comma, a newline, four
spaces of indentation and the next opening quote, and terminated by a newline
and the closing parenthesis. -/
def sqlTail : List (List Char) → List Char
  | [] => '\x27' :: '\n' :: ')' :: []
  | [v] => v ++ ('\x27' :: '\n' :: ')' :: [])
  | v :: vs => v ++ ('\x27' :: ',' :: '\n' :: ' ' :: ' ' :: ' ' :: ' ' :: '\x27' :: sqlTail vs)

/-- Scanning the VALUES text of quote-free values returns exactly the values. -/
theorem scanVals_sqlTail : ∀ (vs : List (List Char)) (n : Nat) (cs : List Char),
    vs ≠ [] → vs.length ≤ n → (∀ v ∈ vs, '\x27' ∉ v) →
    skipWs cs = '\x27' :: sqlTail vs →
    scanVals n cs = some vs := by
  intro vs
  induction vs with
  | nil => intro n cs h; exact absurd rfl h
  | cons v vs ih =>
    intro n cs _ hlen hapos hskip
    obtain ⟨m, rfl⟩ : ∃ m, n = m + 1 := ⟨n - 1, by simp at hlen; omega⟩
    have hv : '\x27' ∉ v := hapos v (List.mem_cons_self v vs)
    cases vs with
    | nil =>
      have hscan : scanLit (sqlTail [v]) = some (v, '\n' :: ')' :: []) := by
        show scanLit (v ++ '\x27' :: ('\n' :: ')' :: [])) = _
        exact scanLit_exact v _ hv (by simp)
      have hws1 : skipWs ('\n' :: ')' :: ([] : List Char)) = ')' :: [] := rfl
      have hws2 : skipWs ([] : List Char) = [] := rfl
      simp [scanVals, hskip, hscan, hws1, hws2]
    | cons v2 vs2 =>
      have hscan : scanLit (sqlTail (v :: v2 :: vs2))
          = some (v, ',' :: '\n' :: ' ' :: ' ' :: ' ' :: ' ' :: '\x27' :: sqlTail (v2 :: vs2)) := by
        show scanLit (v ++ '\x27' :: _) = _
        exact scanLit_exact v _ hv (by simp)
      have hwsc : ∀ X : List Char, skipWs (',' :: X) = ',' :: X := fun _ => rfl
      have hnext := ih m ('\n' :: ' ' :: ' ' :: ' ' :: ' ' :: '\x27' :: sqlTail (v2 :: vs2))
        (by simp) (by simp at hlen ⊢; omega)
        (fun w hw => hapos w (List.mem_cons_of_mem v hw)) rfl
      simp [scanVals, hskip, hscan, hwsc, hnext]

/-- The characters of a generated insert statement: the fixed header, the
indentation and opening quote, then the values joined by the separator and
the closing parenthesis. -/
theorem genSQL_data (d : Int) (y : String) (cc : Int)
    (cd rc rd cac cad camc camd : String) (m f t h : Int) :
    (generate_insert_sql d y cc cd rc rd cac cad camc camd m f t h).data
      = insertHeaderChars ++ '\n' :: ' ' :: ' ' :: ' ' :: ' ' :: '\x27' ::
          sqlTail [(pyStrInt d).data, y.data, (pyStrInt cc).data, cd.data, rc.data,
            rd.data, cac.data, cad.data, camc.data, camd.data, (pyStrInt m).data,
            (pyStrInt f).data, (pyStrInt t).data, (pyStrInt h).data] := by
  simp [generate_insert_sql, String.data_append, insertHeaderChars, sqlTail,
    List.append_assoc, List.cons_append]

/-- C10: `generate_insert_sql` splices all fourteen arguments verbatim between
single quotes with no escaping: whenever the eight string fields contain no
apostrophe the generated text denotes the single-row insertion of exactly
those fourteen values (the reference reading recovers them), while with an
apostrophe in a string field the generated text is not a well-formed
single-row insertion of those values. -/
theorem spec_C10_thm (d : Int) (y : String) (cc : Int)
    (cd rc rd cac cad camc camd : String) (m f t h : Int)
    (hy : '\x27' ∉ y.data) (hcd : '\x27' ∉ cd.data) (hrc : '\x27' ∉ rc.data)
    (hrd : '\x27' ∉ rd.data) (hcac : '\x27' ∉ cac.data) (hcad : '\x27' ∉ cad.data)
    (hcamc : '\x27' ∉ camc.data) (hcamd : '\x27' ∉ camd.data) :
    parseInsert (generate_insert_sql d y cc cd rc rd cac cad camc camd m f t h)
      = some [pyStrInt d, y, pyStrInt cc, cd, rc, rd, cac, cad, camc, camd,
              pyStrInt m, pyStrInt f, pyStrInt t, pyStrInt h]
    ∧ parseInsert (generate_insert_sql 1993 "9301" 1 "O\x27Brien" "" "" "" "" "" "" 1 2 3 4)
      = none := by
  refine ⟨?_, by decide⟩
  have hdata := genSQL_data d y cc cd rc rd cac cad camc camd m f t h
  set vals : List (List Char) := [(pyStrInt d).data, y.data, (pyStrInt cc).data, cd.data,
    rc.data, rd.data, cac.data, cad.data, camc.data, camd.data, (pyStrInt m).data,
    (pyStrInt f).data, (pyStrInt t).data, (pyStrInt h).data] with hvals
  have hscan : scanVals 14 ('\n' :: ' ' :: ' ' :: ' ' :: ' ' :: '\x27' :: sqlTail vals)
      = some vals := by
    apply scanVals_sqlTail
    · rw [hvals]
      simp
    · rw [hvals]
      simp
    · intro v hv
      rw [hvals] at hv
      simp only [List.mem_cons, List.not_mem_nil, or_false] at hv
      rcases hv with rfl | rfl | rfl | rfl | rfl | rfl | rfl | rfl | rfl | rfl | rfl | rfl | rfl | rfl
      exacts [pyStrInt_noApos d, hy, pyStrInt_noApos cc, hcd, hrc, hrd, hcac, hcad,
        hcamc, hcamd, pyStrInt_noApos m, pyStrInt_noApos f, pyStrInt_noApos t,
        pyStrInt_noApos h]
    · rfl
  unfold parseInsert
  rw [hdata, List.take_left, if_pos rfl, List.drop_left, hscan]
  rw [hvals]
  simp [strMk_data]

/-- C10 witness: a concrete apostrophe-free record round-trips through the
generated SQL text to exactly its fourteen values. -/
theorem spec_C10_w :
    parseInsert (generate_insert_sql 1993 "9301" 1 "Bangkok" "r" "rd" "cc" "ccd" "cm" "cmd" 10 20 30 40)
      = some ["1993", "9301", "1", "Bangkok", "r", "rd", "cc", "ccd", "cm", "cmd",
              "10", "20", "30", "40"] := by
  have h := (spec_C10_thm 1993 "9301" 1 "Bangkok" "r" "rd" "cc" "ccd" "cm" "cmd" 10 20 30 40
    (by decide) (by decide) (by decide) (by decide) (by decide) (by decide) (by decide)
    (by decide)).1
  exact h.trans (by decide)
